import Mathlib

/-!
Verification of the mydyndns agent core and SDK client against its
natural-language specification.

The Go source is shallowly embedded:

* `net.IP` values are byte lists (`List Nat`); Go's `nil` IP is `[]`.
* Errors (`error` values, `fmt.Errorf("...: %w", e)` wrapping, `errors.Is`)
  are modelled by the inductive `GoError` with `errorIs` walking the wrap
  chain.
* The agent's goroutines (`pollIP`, `updateDNS`, `Run` in
  pkg/agent/agent.go) are modelled as functions over finite event traces:
  a trace entry is one `select` iteration delivering either a ticker/channel
  value, and the end of the trace is the `ctx.Done()` arm firing.  The
  `Client` interface is an oracle supplied as part of the trace: each event
  carries the result the client call would return at that point.
* The SDK client (pkg/sdk/client.go) is modelled over an HTTP-transport
  oracle; Go 1.18's `net.ParseIP` (which delegates to `net/netip.ParseAddr`)
  is embedded byte-for-byte over byte lists, since the repository's CI pins
  Go 1.18.x.
-/

/-- Model of a Go `error` value: sentinel errors (`context.Canceled`), plain
errors, the SDK's typed `UnexpectedStatusCode`, `net.ParseError`, and
`fmt.Errorf("msg: %w", inner)` wrapping. -/
inductive GoError : Type
  | canceled
  | base (msg : String)
  | unexpectedStatusCode (status : Nat)
  | netParseError (text : List Nat)
  | wrap (msg : String) (inner : GoError)
  deriving DecidableEq

/-- Model of `errors.Is`: structural equality, else unwrap the chain. -/
def errorIs (e target : GoError) : Bool :=
  if e = target then true
  else
    match e with
    | .wrap _ inner => errorIs inner target
    | _ => false

theorem errorIs_wrap_self (m : String) (e : GoError) : errorIs (.wrap m e) e = true := by
  unfold errorIs
  split
  · rfl
  · unfold errorIs
    simp

theorem errorIs_self (e : GoError) : errorIs e e = true := by
  unfold errorIs
  simp

namespace GoNet

/-- The 12-byte prefix `v4InV6Prefix` from net/ip.go: an IPv4 address `a.b.c.d`
in 16-byte form is this prefix followed by the 4 address bytes. -/
def v4InV6 : List Nat := [0, 0, 0, 0, 0, 0, 0, 0, 0, 0, 255, 255]

/-- Model of `net.IP.Equal` (net/ip.go): byte-wise equality after aligning a
4-byte and a 16-byte form through the IPv4-in-IPv6 prefix. -/
def IPEqual (ip x : List Nat) : Bool :=
  if ip.length = x.length then ip == x
  else if ip.length = 4 ∧ x.length = 16 then
    (x.take 12 == v4InV6) && (ip == x.drop 12)
  else if ip.length = 16 ∧ x.length = 4 then
    (ip.take 12 == v4InV6) && (ip.drop 12 == x)
  else false

/-- Model of `net.IP.To16` (net/ip.go): the 16-byte form of an address, `none`
when the representation is neither 4 nor 16 bytes long. -/
def To16 (ip : List Nat) : Option (List Nat) :=
  if ip.length = 4 then some (v4InV6 ++ ip)
  else if ip.length = 16 then some ip
  else none

end GoNet

namespace GoNet

/-- Decimal digit test on a byte (`'0'` = 48 … `'9'` = 57). -/
def isDigit (c : Nat) : Bool := 48 ≤ c && c ≤ 57

/-- Hex digit value of a byte per the inner loop of `netip.parseIPv6`
(`0-9`, `a-f`, `A-F`), `none` on any other byte. -/
def hexVal (c : Nat) : Option Nat :=
  if 48 ≤ c ∧ c ≤ 57 then some (c - 48)
  else if 97 ≤ c ∧ c ≤ 102 then some (c - 97 + 10)
  else if 65 ≤ c ∧ c ≤ 70 then some (c - 65 + 10)
  else none

/-- Model of the character loop of `netip.parseIPv4` (Go 1.18
net/netip/netip.go): `s` is the unread input, `val`/`digLen` the value and
digit count of the current octet, `fields` the completed octets in reverse.
Rejects leading zeros, octets above 255, empty octets, and a fifth octet;
returns the four octets on success. -/
def parseIPv4Fields : List Nat → Nat → Nat → List Nat → Option (List Nat)
  | [], val, _, fields =>
      if fields.length < 3 then none
      else some ((val :: fields).reverse)
  | c :: rest, val, digLen, fields =>
      if isDigit c then
        if digLen = 1 ∧ val = 0 then none
        else
          let val2 := val * 10 + (c - 48)
          if 255 < val2 then none
          else parseIPv4Fields rest val2 (digLen + 1) fields
      else if c = 46 then
        if digLen = 0 ∨ rest = [] then none
        else if fields.length = 3 then none
        else parseIPv4Fields rest 0 0 (val :: fields)
      else none

/-- Model of `netip.parseIPv4`: the four address bytes of a dotted-decimal
IPv4 text, or `none`. -/
def parseIPv4 (s : List Nat) : Option (List Nat) :=
  parseIPv4Fields s 0 0 []

/-- Model of the inner hex-group loop of `netip.parseIPv6`: scans leading hex
digits of `s` into `acc` (`off` digits consumed so far).  Returns
`(acc, off, rest)` at the first non-hex byte or end of input; `none` is the
hard parse error for a fifth digit (`off > 3`) or a value ≥ 2^16. -/
def scanHexGroup : List Nat → Nat → Nat → Option (Nat × Nat × List Nat)
  | [], acc, off => some (acc, off, [])
  | c :: rest, acc, off =>
      match hexVal c with
      | none => some (acc, off, c :: rest)
      | some d =>
          if 4 ≤ off then none
          else
            let acc2 := acc * 16 + d
            if 65535 < acc2 then none
            else scanHexGroup rest acc2 (off + 1)

/-- The checks `netip.parseIPv6` performs after its main loop exits with
unread input `s`, `i` address bytes written and ellipsis position `ell`:
any unread input is trailing garbage; fewer than 16 bytes require an
ellipsis, which is expanded with zero bytes; exactly 16 bytes forbid an
ellipsis. -/
def v6Finish (ipAcc : List Nat) (i : Nat) (ell : Option Nat) (s : List Nat) :
    Option (List Nat) :=
  if s ≠ [] then none
  else if i < 16 then
    match ell with
    | none => none
    | some e => some (ipAcc.take e ++ List.replicate (16 - i) 0 ++ ipAcc.drop e)
  else
    match ell with
    | some _ => none
    | none => some ipAcc

/-- Model of the main loop of `netip.parseIPv6` (Go 1.18): one iteration per
16-bit group while `i < 16`.  A group is hex digits, then either a dot
(embedded trailing IPv4, re-parsed from the group start), end of input, or a
colon followed by more groups, with `::` recorded once in `ell`. -/
def parseV6Groups (s : List Nat) (i : Nat) (ell : Option Nat) (ipAcc : List Nat) :
    Option (List Nat) :=
  if _h : i < 16 then
    match scanHexGroup s 0 0 with
    | none => none
    | some (acc, off, rest) =>
        if off = 0 then none
        else if rest.head? = some 46 then
          if ell = none ∧ i ≠ 12 then none
          else if 16 < i + 4 then none
          else
            match parseIPv4 s with
            | none => none
            | some f4 => v6Finish (ipAcc ++ f4) (i + 4) ell []
        else
          let ipAcc2 := ipAcc ++ [acc / 256, acc % 256]
          match rest with
          | [] => v6Finish ipAcc2 (i + 2) ell []
          | c :: rest2 =>
              if c = 58 then
                match rest2 with
                | [] => none
                | c2 :: rest3 =>
                    if c2 = 58 then
                      match ell with
                      | some _ => none
                      | none =>
                          if rest3 = [] then
                            v6Finish ipAcc2 (i + 2) (some (i + 2)) []
                          else parseV6Groups rest3 (i + 2) (some (i + 2)) ipAcc2
                    else parseV6Groups (c2 :: rest3) (i + 2) ell ipAcc2
              else none
  else v6Finish ipAcc i ell s
termination_by 16 - i
decreasing_by all_goals omega

/-- Split a byte string at its LAST `'%'` (zone separator), as
`netip.parseIPv6` does; `none` when there is no `'%'`. -/
def splitLastPct : List Nat → Option (List Nat × List Nat)
  | [] => none
  | c :: rest =>
      match splitLastPct rest with
      | some (b, a) => some (c :: b, a)
      | none => if c = 37 then some ([], rest) else none

/-- Model of `netip.parseIPv6` on a zone-stripped input: a leading `::` sets
the ellipsis before any group (and alone denotes the unspecified address);
otherwise the group loop runs from the start. -/
def parseIPv6NoZone (s : List Nat) : Option (List Nat) :=
  match s with
  | 58 :: 58 :: rest =>
      if rest = [] then some (List.replicate 16 0)
      else parseV6Groups rest 0 (some 0) []
  | _ => parseV6Groups s 0 none []

/-- Model of `netip.parseIPv6`: strip the zone at the last `'%'` (an empty
zone is an error), parse the remainder, and return the 16 address bytes with
the zone. -/
def parseIPv6 (inp : List Nat) : Option (List Nat × List Nat) :=
  match splitLastPct inp with
  | some (_, []) => none
  | some (s, zone) => (parseIPv6NoZone s).map fun a => (a, zone)
  | none => (parseIPv6NoZone inp).map fun a => (a, [])

/-- The dispatch scan of `netip.ParseAddr`: the first of `'.'`, `':'`, `'%'`
in the input decides the grammar. -/
inductive AddrKind : Type
  | dot
  | colon
  | pct
  | neither
  deriving DecidableEq

/-- First special byte of the input, per the loop at the top of
`netip.ParseAddr`. -/
def firstSpecial : List Nat → AddrKind
  | [] => .neither
  | 46 :: _ => .dot
  | 58 :: _ => .colon
  | 37 :: _ => .pct
  | _ :: rest => firstSpecial rest

/-- Model of Go 1.18 `net.ParseIP` (net/ip.go `parseIP`, which calls
`netip.ParseAddr` and rejects any zone, returning the address `As16`):
the 16-byte form on success, `none` on any parse failure. -/
def ParseIP (s : List Nat) : Option (List Nat) :=
  match firstSpecial s with
  | .dot => (parseIPv4 s).map fun f => v4InV6 ++ f
  | .colon =>
      match parseIPv6 s with
      | some (addr, []) => some addr
      | _ => none
  | .pct => none
  | .neither => none

/-- Model of `net.IP.UnmarshalText` (net/ip.go): empty text yields the nil IP
with no error; otherwise `ParseIP`, failure being a `net.ParseError`. -/
def UnmarshalText (text : List Nat) : Except GoError (List Nat) :=
  if text = [] then .ok []
  else
    match ParseIP text with
    | some x => .ok x
    | none => .error (.netParseError text)

end GoNet

namespace Sdk

/-- `maxIPStrLen` from pkg/sdk/client.go. -/
def maxIPStrLen : Nat := 48

/-- Model of `(*Client).parseIP` (pkg/sdk/client.go): the read loop consumes
the response body through `io.LimitReader(r, maxIPStrLen)` until EOF, so
`buf[:size]` is the first `maxIPStrLen` bytes of the body; the result is
`net.IP.UnmarshalText` on those bytes. -/
def parseIP (body : List Nat) : Except GoError (List Nat) :=
  GoNet.UnmarshalText (body.take maxIPStrLen)

/-- Transport oracle for one request: either `(*http.Client).Do` fails, or a
response with a status code and a full body arrives. -/
inductive HTTPOutcome : Type
  | failure (e : GoError)
  | response (status : Nat) (body : List Nat)
  deriving DecidableEq

/-- Model of `(*Client).doRequest` (pkg/sdk/client.go): a transport error is
returned as is; a response with status ≠ 200 becomes a
`NewUnexpectedStatusCode` error. -/
def doRequest : HTTPOutcome → Except GoError (Nat × List Nat)
  | .failure e => .error e
  | .response status body =>
      if status ≠ 200 then .error (.unexpectedStatusCode status)
      else .ok (status, body)

/-- Model of `(*Client).fetchIP` (pkg/sdk/client.go): `reqErr` is the
`newRequest` outcome (an invalid request is returned before any transport
activity); then `doRequest`, then `parseIP` on the body. -/
def fetchIP (reqErr : Option GoError) (out : HTTPOutcome) :
    Except GoError (List Nat) :=
  match reqErr with
  | some e => .error e
  | none =>
      match doRequest out with
      | .error e => .error e
      | .ok (_, body) => parseIP body

/-- `MyIPWithContext` (pkg/sdk/client.go) is `fetchIP` with `GET my-ip`; the
method and path only shape the request, not the result handling. -/
def MyIPWithContext (reqErr : Option GoError) (out : HTTPOutcome) :
    Except GoError (List Nat) :=
  fetchIP reqErr out

/-- `UpdateAliasWithContext` (pkg/sdk/client.go) is `fetchIP` with
`POST dns-value`. -/
def UpdateAliasWithContext (reqErr : Option GoError) (out : HTTPOutcome) :
    Except GoError (List Nat) :=
  fetchIP reqErr out

/-- `true` exactly on error results. -/
def isFailure : Except GoError (List Nat) → Bool
  | .error _ => true
  | .ok _ => false

end Sdk

namespace Agent

/-- One iteration of the `updateDNS` loop body (pkg/agent/agent.go) for a
received polled IP `latest` with baseline `prev`; `updResult` is what
`client.UpdateAliasWithContext` would return if invoked.  Returns the new
baseline and the number of `UpdateAliasWithContext` calls made (0 or 1). -/
def updateStep (prev latest : List Nat) (updResult : Except GoError (List Nat)) :
    List Nat × Nat :=
  if GoNet.IPEqual latest prev then (prev, 0)
  else
    match updResult with
    | .ok aliasIP => (aliasIP, 1)
    | .error _ => (prev, 1)

/-- The `updateDNS` loop (pkg/agent/agent.go) over a finite trace of received
channel values, each paired with the oracle outcome of the update call that
would be made at that iteration; the end of the list is `ctx.Done()` firing.
Returns the final baseline and the total number of update calls. -/
def updateDNS (prev : List Nat) :
    List (List Nat × Except GoError (List Nat)) → List Nat × Nat
  | [] => (prev, 0)
  | (ip, r) :: rest =>
      let s := updateStep prev ip r
      let t := updateDNS s.1 rest
      (t.1, s.2 + t.2)

/-- The IP addresses returned by the successful `UpdateAliasWithContext` calls
that the `updateDNS` loop makes along a trace, in order. -/
def updateSuccesses (prev : List Nat) :
    List (List Nat × Except GoError (List Nat)) → List (List Nat)
  | [] => []
  | (ip, r) :: rest =>
      if GoNet.IPEqual ip prev then updateSuccesses prev rest
      else
        match r with
        | .ok aliasIP => aliasIP :: updateSuccesses aliasIP rest
        | .error _ => updateSuccesses prev rest

/-- The `pollIP` loop (pkg/agent/agent.go) over a finite trace of ticker
firings, each carrying the oracle outcome of `client.MyIPWithContext`; the end
of the list is `ctx.Done()` firing.  Returns the values sent on the channel
and the number of `MyIPWithContext` calls made. -/
def pollIP : List (Except GoError (List Nat)) → List (List Nat) × Nat
  | [] => ([], 0)
  | .error _ :: rest =>
      let t := pollIP rest
      (t.1, t.2 + 1)
  | .ok myIP :: rest =>
      let t := pollIP rest
      (myIP :: t.1, t.2 + 1)

/-- Inputs determining one execution of `Run` (pkg/agent/agent.go):
the bootstrap `UpdateAliasWithContext` result, the value `ctx.Err()` would
report when `Run` checks it after a bootstrap failure, the per-tick
`MyIPWithContext` outcomes until cancellation, and the oracle for the
updater's calls (indexed by received-value position). -/
structure RunInput where
  bootstrap : Except GoError (List Nat)
  ctxErrAtStart : Option GoError
  ticks : List (Except GoError (List Nat))
  updOutcome : Nat → Except GoError (List Nat)

/-- Observable outcome of one execution of `Run`. -/
structure RunResult where
  retErr : Option GoError
  pollStarted : Bool
  updStarted : Bool
  myIPCalls : Nat
  updCalls : Nat
  finalBaseline : Option (List Nat)
  warnedEarlyShutdown : Bool
  deriving DecidableEq

/-- Pair each received channel value with the update-call oracle outcome for
its position. -/
def attachOracle (f : Nat → Except GoError (List Nat)) (xs : List (List Nat)) :
    List (List Nat × Except GoError (List Nat)) :=
  xs.enum.map fun p => (p.2, f p.1)

/-- Model of `Run` (pkg/agent/agent.go).  On bootstrap failure it returns
`fmt.Errorf("failed to start agent: %w", err)` without starting either
goroutine (`ctx.Err()` is consulted only for the warning log line).  On
bootstrap success it starts both loops, the updater receiving exactly the
values the poller sent, waits for both to finish, and returns `nil`. -/
def Run (inp : RunInput) : RunResult :=
  match inp.bootstrap with
  | .error e =>
      { retErr := some (.wrap "failed to start agent" e)
        pollStarted := false
        updStarted := false
        myIPCalls := 0
        updCalls := 0
        finalBaseline := none
        warnedEarlyShutdown := inp.ctxErrAtStart.isSome }
  | .ok startIP =>
      let polled := pollIP inp.ticks
      let upd := updateDNS startIP (attachOracle inp.updOutcome polled.1)
      { retErr := none
        pollStarted := true
        updStarted := true
        myIPCalls := polled.2
        updCalls := upd.2
        finalBaseline := some upd.1
        warnedEarlyShutdown := false }

end Agent

/-! ## Shared helper lemmas -/

theorem getLastD_cons {α : Type} (a d : α) (l : List α) :
    ((a :: l).getLast?).getD d = (l.getLast?).getD a := by
  induction l generalizing a d with
  | nil => rfl
  | cons b l ih =>
      rw [List.getLast?_cons_cons]
      rw [ih b d, ih b a]

theorem pollIP_count (ticks : List (Except GoError (List Nat))) :
    (Agent.pollIP ticks).2 = ticks.length := by
  induction ticks with
  | nil => rfl
  | cons t rest ih => cases t <;> simp [Agent.pollIP, ih]

theorem errorIs_wrap_canceled (m : String) (e : GoError) (h : errorIs e .canceled = true) :
    errorIs (.wrap m e) .canceled = true := by
  rw [errorIs]
  split
  · rfl
  · exact h

/-! ## Claims about the Updater loop -/

/-- C1: for every iteration of the `updateDNS` loop with baseline `prev` and
received polled IP `ip`: if `ip` equals `prev` under `net.IP.Equal`, no
`UpdateAliasWithContext` call is made and the baseline is unchanged (the loop
continues as if the value had not arrived); if it differs, exactly one call is
made, and on success the baseline becomes the IP returned by that call (not
the polled value). -/
theorem spec_C1 (prev ip : List Nat) (r : Except GoError (List Nat))
    (rest : List (List Nat × Except GoError (List Nat))) :
    (GoNet.IPEqual ip prev = true →
      Agent.updateStep prev ip r = (prev, 0) ∧
      Agent.updateDNS prev ((ip, r) :: rest) = Agent.updateDNS prev rest) ∧
    (GoNet.IPEqual ip prev = false →
      (Agent.updateStep prev ip r).2 = 1 ∧
      (∀ a, r = .ok a → Agent.updateStep prev ip r = (a, 1)) ∧
      (Agent.updateDNS prev ((ip, r) :: rest)).2
        = 1 + (Agent.updateDNS (Agent.updateStep prev ip r).1 rest).2) := by
  constructor
  · intro h
    have hstep : Agent.updateStep prev ip r = (prev, 0) := by
      simp [Agent.updateStep, h]
    exact ⟨hstep, by simp [Agent.updateDNS, hstep]⟩
  · intro h
    refine ⟨?_, ?_, ?_⟩
    · cases r <;> simp [Agent.updateStep, h]
    · intro a ha
      subst ha
      simp [Agent.updateStep, h]
    · have h2 : (Agent.updateStep prev ip r).2 = 1 := by
        cases r <;> simp [Agent.updateStep, h]
      simp [Agent.updateDNS, h2]

theorem spec_C1_witness :
    GoNet.IPEqual [1, 2, 3, 4] [1, 2, 3, 4] = true ∧
    Agent.updateStep [1, 2, 3, 4] [1, 2, 3, 4] (.ok [5, 5, 5, 5]) = ([1, 2, 3, 4], 0) ∧
    GoNet.IPEqual [9, 8, 7, 6] [1, 2, 3, 4] = false ∧
    Agent.updateStep [1, 2, 3, 4] [9, 8, 7, 6] (.ok [9, 8, 7, 6]) = ([9, 8, 7, 6], 1) :=
  ⟨by decide,
   ((spec_C1 [1, 2, 3, 4] [1, 2, 3, 4] (.ok [5, 5, 5, 5]) []).1 (by decide)).1,
   by decide,
   ((spec_C1 [1, 2, 3, 4] [9, 8, 7, 6] (.ok [9, 8, 7, 6]) []).2 (by decide)).2.1
     [9, 8, 7, 6] rfl⟩

/-- C2: after any finite trace of received polled values, the `updateDNS`
baseline equals the IP returned by the last successful update call, or the
bootstrap value when no update call has succeeded — never a merely polled
value. -/
theorem spec_C2 (start : List Nat)
    (events : List (List Nat × Except GoError (List Nat))) :
    (Agent.updateDNS start events).1 =
      ((Agent.updateSuccesses start events).getLast?).getD start := by
  induction events generalizing start with
  | nil => rfl
  | cons e rest ih =>
      obtain ⟨ip, r⟩ := e
      by_cases h : GoNet.IPEqual ip start
      · simp [Agent.updateDNS, Agent.updateSuccesses, Agent.updateStep, h, ih]
      · cases r with
        | ok a =>
            simp only [Agent.updateDNS, Agent.updateSuccesses, Agent.updateStep,
              h, if_neg, Bool.false_eq_true, ite_false]
            rw [ih a, getLastD_cons]
        | error e' =>
            simp [Agent.updateDNS, Agent.updateSuccesses, Agent.updateStep, h, ih]

/-- C6: when a received polled IP differs from the baseline and the resulting
`UpdateAliasWithContext` call fails, the baseline is left unchanged by that
iteration (one call was made), so receiving the same differing IP again makes
another update call. -/
theorem spec_C6 (prev ip : List Nat) (e : GoError)
    (r2 : Except GoError (List Nat)) (h : GoNet.IPEqual ip prev = false) :
    Agent.updateStep prev ip (.error e) = (prev, 1) ∧
    (Agent.updateStep (Agent.updateStep prev ip (.error e)).1 ip r2).2 = 1 := by
  have h1 : Agent.updateStep prev ip (.error e) = (prev, 1) := by
    simp [Agent.updateStep, h]
  refine ⟨h1, ?_⟩
  rw [h1]
  cases r2 <;> simp [Agent.updateStep, h]

theorem spec_C6_witness :
    GoNet.IPEqual [9, 8, 7, 6] [1, 2, 3, 4] = false ∧
    Agent.updateStep [1, 2, 3, 4] [9, 8, 7, 6] (.error (.base "alias update error"))
      = ([1, 2, 3, 4], 1) ∧
    (Agent.updateStep [1, 2, 3, 4] [9, 8, 7, 6] (.ok [9, 8, 7, 6])).2 = 1 :=
  ⟨by decide,
   (spec_C6 [1, 2, 3, 4] [9, 8, 7, 6] (.base "alias update error")
     (.ok [9, 8, 7, 6]) (by decide)).1,
   (spec_C6 [1, 2, 3, 4] [9, 8, 7, 6] (.base "alias update error")
     (.ok [9, 8, 7, 6]) (by decide)).2⟩

/-! ## Claims about the Poller loop -/

/-- C8: each tick of the `pollIP` loop invokes `MyIPWithContext`; a failed
fetch sends nothing on the channel and the loop goes on to process every
remaining tick (one fetch failure never stops polling and produces no error
for the supervisor — `pollIP` returns no error at all); a successful fetch
sends the fetched IP. -/
theorem spec_C8 (e : GoError) (ip : List Nat)
    (rest ticks : List (Except GoError (List Nat))) :
    Agent.pollIP (.error e :: rest)
      = ((Agent.pollIP rest).1, (Agent.pollIP rest).2 + 1) ∧
    Agent.pollIP (.ok ip :: rest)
      = (ip :: (Agent.pollIP rest).1, (Agent.pollIP rest).2 + 1) ∧
    (Agent.pollIP ticks).2 = ticks.length :=
  ⟨rfl, rfl, pollIP_count ticks⟩

/-! ## Claims about the Run supervisor -/

/-- Concrete execution showing claim C3 false: the cancellation signal is
already active when the bootstrap update fails, but the client error does not
wrap `context.Canceled`. -/
def c3Input : Agent.RunInput where
  bootstrap := .error (.base "alias update error")
  ctxErrAtStart := some .canceled
  ticks := []
  updOutcome := fun _ => .error (.base "x")

/-- C3 is false as stated: `Run` wraps only the bootstrap client error
(`fmt.Errorf("failed to start agent: %w", err)`), consulting `ctx.Err()` only
for a log line, so with cancellation active but a non-cancellation client
error the returned error does not unwrap to the cancellation error. -/
theorem spec_C3_cex :
    c3Input.ctxErrAtStart = some .canceled ∧
    c3Input.bootstrap = .error (.base "alias update error") ∧
    (Agent.Run c3Input).retErr
      = some (.wrap "failed to start agent" (.base "alias update error")) ∧
    errorIs (.wrap "failed to start agent" (.base "alias update error"))
      .canceled = false ∧
    (Agent.Run c3Input).myIPCalls = 0 :=
  ⟨rfl, rfl, rfl, by decide, rfl⟩

/-- C3 (amended): when the bootstrap update fails while the cancellation
signal is already active, `Run` logs the early-shutdown warning, never starts
the Poller (`MyIPWithContext` is never invoked), and returns
`fmt.Errorf("failed to start agent: %w", err)`; that error unwraps to the
cancellation error exactly when the bootstrap error itself unwraps to it (as
happens when the client call was aborted by the cancelled context). -/
theorem spec_C3 (inp : Agent.RunInput) (e : GoError)
    (hb : inp.bootstrap = .error e) (hc : inp.ctxErrAtStart.isSome = true) :
    (Agent.Run inp).myIPCalls = 0 ∧
    (Agent.Run inp).pollStarted = false ∧
    (Agent.Run inp).warnedEarlyShutdown = true ∧
    (Agent.Run inp).retErr = some (.wrap "failed to start agent" e) ∧
    (errorIs e .canceled = true →
      errorIs (.wrap "failed to start agent" e) .canceled = true) := by
  refine ⟨?_, ?_, ?_, ?_, errorIs_wrap_canceled _ e⟩ <;>
    simp [Agent.Run, hb, hc]

theorem spec_C3_witness :
    (Agent.Run
      { bootstrap := .error (.wrap "error" .canceled)
        ctxErrAtStart := some .canceled
        ticks := []
        updOutcome := fun _ => .error (.base "x") }).myIPCalls = 0 ∧
    errorIs (.wrap "failed to start agent" (.wrap "error" .canceled))
      .canceled = true :=
  ⟨(spec_C3
      { bootstrap := .error (.wrap "error" .canceled)
        ctxErrAtStart := some .canceled
        ticks := []
        updOutcome := fun _ => .error (.base "x") }
      (.wrap "error" .canceled) rfl rfl).1,
   (spec_C3
      { bootstrap := .error (.wrap "error" .canceled)
        ctxErrAtStart := some .canceled
        ticks := []
        updOutcome := fun _ => .error (.base "x") }
      (.wrap "error" .canceled) rfl rfl).2.2.2.2 (by decide)⟩

/-- C4: when the bootstrap update fails and the cancellation signal is not
active, `Run` returns a non-nil error unwrapping (per `errors.Is`) to the
underlying client error, and neither the Poller nor the Updater is started:
no `MyIPWithContext` call and no further `UpdateAliasWithContext` call
occurs. -/
theorem spec_C4 (inp : Agent.RunInput) (e : GoError)
    (hb : inp.bootstrap = .error e) (_hc : inp.ctxErrAtStart = none) :
    (Agent.Run inp).retErr = some (.wrap "failed to start agent" e) ∧
    errorIs (.wrap "failed to start agent" e) e = true ∧
    (Agent.Run inp).pollStarted = false ∧
    (Agent.Run inp).updStarted = false ∧
    (Agent.Run inp).myIPCalls = 0 ∧
    (Agent.Run inp).updCalls = 0 := by
  refine ⟨?_, errorIs_wrap_self _ e, ?_, ?_, ?_, ?_⟩ <;>
    simp [Agent.Run, hb]

theorem spec_C4_witness :
    (Agent.Run
      { bootstrap := .error (.base "alias update error")
        ctxErrAtStart := none
        ticks := []
        updOutcome := fun _ => .error (.base "x") }).retErr
      = some (.wrap "failed to start agent" (.base "alias update error")) ∧
    errorIs (.wrap "failed to start agent" (.base "alias update error"))
      (.base "alias update error") = true :=
  ⟨(spec_C4 _ (.base "alias update error") rfl rfl).1,
   (spec_C4
      { bootstrap := .error (.base "alias update error")
        ctxErrAtStart := none
        ticks := []
        updOutcome := fun _ => .error (.base "x") }
      (.base "alias update error") rfl rfl).2.1⟩

/-- C5: when the bootstrap update succeeds, `Run` starts both units, the
Poller processes its entire tick trace (running until cancellation ends it)
and the Updater processes everything the Poller sent, and `Run` then returns
a nil error — whatever poll or update failures the traces contain. -/
theorem spec_C5 (inp : Agent.RunInput) (startIP : List Nat)
    (hb : inp.bootstrap = .ok startIP) :
    (Agent.Run inp).retErr = none ∧
    (Agent.Run inp).pollStarted = true ∧
    (Agent.Run inp).updStarted = true ∧
    (Agent.Run inp).myIPCalls = inp.ticks.length := by
  refine ⟨?_, ?_, ?_, ?_⟩ <;>
    simp [Agent.Run, hb, pollIP_count]

theorem spec_C5_witness :
    (Agent.Run
      { bootstrap := .ok [1, 2, 3, 4]
        ctxErrAtStart := none
        ticks := [.error (.base "ip fetch error"), .ok [2, 3, 4, 5]]
        updOutcome := fun _ => .error (.base "alias update error") }).retErr
      = none ∧
    (Agent.Run
      { bootstrap := .ok [1, 2, 3, 4]
        ctxErrAtStart := none
        ticks := [.error (.base "ip fetch error"), .ok [2, 3, 4, 5]]
        updOutcome := fun _ => .error (.base "alias update error") }).myIPCalls
      = 2 :=
  ⟨(spec_C5 _ [1, 2, 3, 4] rfl).1, (spec_C5 _ [1, 2, 3, 4] rfl).2.2.2⟩

/-! ## Claim about representation-insensitive IP equality -/

/-- C7: two byte representations that denote the same address (same
`net.IP.To16` normalization — e.g. a 4-byte IPv4 value and its 16-byte
IPv4-in-IPv6 form, or two textual forms parsed to identical bytes) are
treated as equal by `net.IP.Equal`, the check `updateDNS` uses, so no update
call is triggered by a representation difference alone. -/
theorem spec_C7 (ip1 ip2 v : List Nat)
    (h1 : GoNet.To16 ip1 = some v) (h2 : GoNet.To16 ip2 = some v) :
    GoNet.IPEqual ip1 ip2 = true ∧
    ∀ r, Agent.updateStep ip2 ip1 r = (ip2, 0) := by
  have e1 : (ip1.length = 4 ∧ v = GoNet.v4InV6 ++ ip1) ∨ (ip1.length = 16 ∧ v = ip1) := by
    unfold GoNet.To16 at h1
    split_ifs at h1 with h h'
    · exact .inl ⟨h, (Option.some.inj h1).symm⟩
    · exact .inr ⟨h', (Option.some.inj h1).symm⟩
  have e2 : (ip2.length = 4 ∧ v = GoNet.v4InV6 ++ ip2) ∨ (ip2.length = 16 ∧ v = ip2) := by
    unfold GoNet.To16 at h2
    split_ifs at h2 with h h'
    · exact .inl ⟨h, (Option.some.inj h2).symm⟩
    · exact .inr ⟨h', (Option.some.inj h2).symm⟩
  have hpre : GoNet.v4InV6.length = 12 := rfl
  have hmain : GoNet.IPEqual ip1 ip2 = true := by
    rcases e1 with ⟨l1, hv1⟩ | ⟨l1, hv1⟩ <;> rcases e2 with ⟨l2, hv2⟩ | ⟨l2, hv2⟩
    · have : ip1 = ip2 := List.append_cancel_left (hv1 ▸ hv2)
      subst this
      simp [GoNet.IPEqual]
    · have hip2 : ip2 = GoNet.v4InV6 ++ ip1 := hv2 ▸ hv1
      have ht : ip2.take 12 = GoNet.v4InV6 := by
        rw [hip2]
        exact List.take_left' hpre
      have hd : ip2.drop 12 = ip1 := by
        rw [hip2]
        exact List.drop_left' hpre
      unfold GoNet.IPEqual
      rw [if_neg (by omega), if_pos ⟨l1, l2⟩, ht, hd]
      simp
    · have hip1 : ip1 = GoNet.v4InV6 ++ ip2 := hv1 ▸ hv2
      have ht : ip1.take 12 = GoNet.v4InV6 := by
        rw [hip1]
        exact List.take_left' hpre
      have hd : ip1.drop 12 = ip2 := by
        rw [hip1]
        exact List.drop_left' hpre
      unfold GoNet.IPEqual
      rw [if_neg (by omega), if_neg (by omega), if_pos ⟨l1, l2⟩, ht, hd]
      simp
    · have : ip1 = ip2 := hv1 ▸ hv2
      subst this
      simp [GoNet.IPEqual]
  exact ⟨hmain, fun r => by simp [Agent.updateStep, hmain]⟩

theorem spec_C7_witness :
    GoNet.IPEqual [1, 2, 3, 4]
      [0, 0, 0, 0, 0, 0, 0, 0, 0, 0, 255, 255, 1, 2, 3, 4] = true ∧
    Agent.updateStep [0, 0, 0, 0, 0, 0, 0, 0, 0, 0, 255, 255, 1, 2, 3, 4]
      [1, 2, 3, 4] (.ok [7, 7, 7, 7])
      = ([0, 0, 0, 0, 0, 0, 0, 0, 0, 0, 255, 255, 1, 2, 3, 4], 0) :=
  ⟨(spec_C7 [1, 2, 3, 4] [0, 0, 0, 0, 0, 0, 0, 0, 0, 0, 255, 255, 1, 2, 3, 4]
      [0, 0, 0, 0, 0, 0, 0, 0, 0, 0, 255, 255, 1, 2, 3, 4] (by decide) (by decide)).1,
   (spec_C7 [1, 2, 3, 4] [0, 0, 0, 0, 0, 0, 0, 0, 0, 0, 255, 255, 1, 2, 3, 4]
      [0, 0, 0, 0, 0, 0, 0, 0, 0, 0, 255, 255, 1, 2, 3, 4] (by decide) (by decide)).2
     (.ok [7, 7, 7, 7])⟩

/-! ## Length bounds for the netip parser

No text accepted by Go 1.18 `net.ParseIP` is longer than 45 bytes, so the
SDK's 48-byte read budget can never truncate an oversized body into an
accepted IP.  The bounds below follow the loop structure of the parser. -/

theorem scanHexGroup_spec (s : List Nat) : ∀ acc off acc2 off2 rest,
    GoNet.scanHexGroup s acc off = some (acc2, off2, rest) →
    s.length + off = rest.length + off2 ∧ off ≤ off2 ∧ off2 ≤ max 4 off := by
  induction s with
  | nil =>
      intro acc off acc2 off2 rest h
      simp only [GoNet.scanHexGroup, Option.some.injEq, Prod.mk.injEq] at h
      obtain ⟨-, h2, h3⟩ := h
      subst h2
      subst h3
      simp
  | cons c tail ih =>
      intro acc off acc2 off2 rest h
      rw [GoNet.scanHexGroup] at h
      cases hv : GoNet.hexVal c with
      | none =>
          rw [hv] at h
          simp only [Option.some.injEq, Prod.mk.injEq] at h
          obtain ⟨-, h2, h3⟩ := h
          subst h2
          subst h3
          simp
      | some d =>
          rw [hv] at h
          simp only at h
          split_ifs at h with h4 h5
          have := ih _ _ _ _ _ h
          have hm : max 4 (off + 1) = 4 := by omega
          rw [hm] at this
          refine ⟨by simp; omega, by omega, by omega⟩

theorem v6Finish_some (a r s : List Nat) (i : Nat) (e : Option Nat)
    (h : GoNet.v6Finish a i e s = some r) :
    s = [] ∧ (i < 16 → e ≠ none) ∧ (16 ≤ i → e = none) := by
  unfold GoNet.v6Finish at h
  split_ifs at h with hs hi
  · refine ⟨not_ne_iff.mp hs, fun _ => ?_, fun h16 => by omega⟩
    cases e with
    | none => simp at h
    | some e' => simp
  · refine ⟨not_ne_iff.mp hs, fun h16 => by omega, fun _ => ?_⟩
    cases e with
    | none => rfl
    | some e' => simp at h

/-- Bound on the unread input of the `parseIPv6` group loop when the ellipsis
has already been seen (even `i` bytes already written). -/
def v6BoundT (i : Nat) : Nat :=
  if 14 ≤ i then 4 else if i = 12 then 9 else 15 + 5 * ((10 - i) / 2)

/-- Bound on the unread input of the `parseIPv6` group loop when no ellipsis
has been seen yet. -/
def v6BoundF (i : Nat) : Nat :=
  if 14 ≤ i then 4 else if i = 12 then 15 else 20 + 5 * ((10 - i) / 2)

/-- Combined bound, selected by the ellipsis state. -/
def v6Bound (ell : Option Nat) (i : Nat) : Nat :=
  if ell.isSome then v6BoundT i else v6BoundF i

theorem v6BoundT_step (i : Nat) (h2 : 2 ∣ i) (h : i ≤ 12) :
    5 + v6BoundT (i + 2) ≤ v6BoundT i := by
  unfold v6BoundT
  split_ifs <;> omega

theorem v6BoundF_step (i : Nat) (h2 : 2 ∣ i) (h : i ≤ 12) :
    5 + v6BoundF (i + 2) ≤ v6BoundF i := by
  unfold v6BoundF
  split_ifs <;> omega

theorem v6BoundF_ellStep (i : Nat) (h2 : 2 ∣ i) (h : i ≤ 12) :
    6 + v6BoundT (i + 2) ≤ v6BoundF i := by
  unfold v6BoundT v6BoundF
  split_ifs <;> omega

theorem v6BoundT_ge4 (i : Nat) (h2 : 2 ∣ i) (h : i ≤ 12) : 4 ≤ v6BoundT i := by
  unfold v6BoundT
  split_ifs <;> omega

theorem v6BoundT_ge15 (i : Nat) (h2 : 2 ∣ i) (h : i ≤ 10) : 15 ≤ v6BoundT i := by
  unfold v6BoundT
  split_ifs <;> omega

theorem v6BoundF_ge15 (i : Nat) (h2 : 2 ∣ i) (h : i ≤ 12) : 15 ≤ v6BoundF i := by
  unfold v6BoundF
  split_ifs <;> omega

theorem parseIPv4Fields_length (s : List Nat) : ∀ val digLen fields r,
    (digLen = 0 → val = 0) →
    (1 ≤ digLen → 10 ^ (digLen - 1) ≤ val ∨ (val = 0 ∧ digLen = 1)) →
    val ≤ 255 → fields.length ≤ 3 →
    GoNet.parseIPv4Fields s val digLen fields = some r →
    s.length ≤ (3 - digLen) + (3 - fields.length) * 4 := by
  induction s with
  | nil =>
      intro val digLen fields r _ _ _ _ _
      simp
  | cons c rest ih =>
      intro val digLen fields r hz hinv hval hflds h
      rw [GoNet.parseIPv4Fields] at h
      by_cases hdig : GoNet.isDigit c
      · rw [if_pos hdig] at h
        by_cases hlead : digLen = 1 ∧ val = 0
        · rw [if_pos hlead] at h
          exact absurd h (by simp)
        · rw [if_neg hlead] at h
          simp only at h
          by_cases hover : 255 < val * 10 + (c - 48)
          · rw [if_pos hover] at h
            exact absurd h (by simp)
          · rw [if_neg hover] at h
            have hd3 : digLen ≤ 2 := by
              by_contra hgt
              push_neg at hgt
              have h1 := hinv (by omega)
              have h2 : (10 : Nat) ^ 2 ≤ 10 ^ (digLen - 1) :=
                Nat.pow_le_pow_right (by norm_num) (by omega)
              have h3 : (10 : Nat) ^ 2 = 100 := by norm_num
              rcases h1 with h1 | ⟨-, h1⟩ <;> omega
            have hinv2 : 1 ≤ digLen + 1 →
                10 ^ (digLen + 1 - 1) ≤ val * 10 + (c - 48) ∨
                (val * 10 + (c - 48) = 0 ∧ digLen + 1 = 1) := by
              intro _
              rcases Nat.eq_zero_or_pos digLen with hd0 | hdpos
              · subst hd0
                have hv0 := hz rfl
                subst hv0
                by_cases hc0 : c - 48 = 0
                · right
                  omega
                · left
                  simpa using by omega
              · left
                rcases hinv hdpos with hge | ⟨hval0, hdl1⟩
                · have hpw : (10 : Nat) ^ (digLen + 1 - 1) = 10 * 10 ^ (digLen - 1) := by
                    conv_lhs => rw [show digLen + 1 - 1 = (digLen - 1) + 1 by omega]
                    rw [pow_succ]
                    ring
                  omega
                · exact absurd ⟨hdl1, hval0⟩ hlead
            have hrec := ih (val * 10 + (c - 48)) (digLen + 1) fields r
              (by omega) hinv2 (by omega) hflds h
            simp only [List.length_cons]
            omega
      · rw [if_neg hdig] at h
        by_cases hdot : c = 46
        · rw [if_pos hdot] at h
          by_cases hempty : digLen = 0 ∨ rest = []
          · rw [if_pos hempty] at h
            exact absurd h (by simp)
          · rw [if_neg hempty] at h
            by_cases hfull : fields.length = 3
            · rw [if_pos hfull] at h
              exact absurd h (by simp)
            · rw [if_neg hfull] at h
              push_neg at hempty
              have hrec := ih 0 0 (val :: fields) r (fun _ => rfl)
                (fun hcon => absurd hcon (by norm_num)) (by omega)
                (by simp only [List.length_cons]; omega) h
              simp only [List.length_cons] at hrec ⊢
              omega
        · rw [if_neg hdot] at h
          exact absurd h (by simp)

theorem parseIPv4_length (s f : List Nat) (h : GoNet.parseIPv4 s = some f) :
    s.length ≤ 15 := by
  have := parseIPv4Fields_length s 0 0 [] f (fun _ => rfl)
    (fun hcon => absurd hcon (by norm_num)) (by norm_num) (by simp) h
  simpa using this

theorem parseV6Groups_length (n : Nat) :
    ∀ s i ell ipAcc r, 16 - i = n → 2 ∣ i →
      GoNet.parseV6Groups s i ell ipAcc = some r →
      s.length ≤ v6Bound ell i := by
  induction n using Nat.strong_induction_on with
  | _ n IH =>
    intro s i ell ipAcc r hn hev h
    rw [GoNet.parseV6Groups] at h
    split at h
    case isTrue hi =>
      cases hscan : GoNet.scanHexGroup s 0 0 with
      | none =>
          rw [hscan] at h
          exact absurd h (by simp)
      | some t =>
          obtain ⟨acc, off, rest⟩ := t
          rw [hscan] at h
          have hsl := scanHexGroup_spec s 0 0 acc off rest hscan
          have hslen : s.length = rest.length + off := by
            have := hsl.1
            omega
          have hoff4 : off ≤ 4 := by
            have := hsl.2.2
            omega
          simp only at h
          by_cases hoff0 : off = 0
          · rw [if_pos hoff0] at h
            exact absurd h (by simp)
          rw [if_neg hoff0] at h
          by_cases hdot : rest.head? = some 46
          · rw [if_pos hdot] at h
            by_cases hg1 : ell = none ∧ i ≠ 12
            · rw [if_pos hg1] at h
              exact absurd h (by simp)
            rw [if_neg hg1] at h
            by_cases hg2 : 16 < i + 4
            · rw [if_pos hg2] at h
              exact absurd h (by simp)
            rw [if_neg hg2] at h
            cases hv4 : GoNet.parseIPv4 s with
            | none =>
                rw [hv4] at h
                exact absurd h (by simp)
            | some f4 =>
                rw [hv4] at h
                simp only at h
                have hs15 := parseIPv4_length s f4 hv4
                cases ell with
                | none =>
                    have hi12 : i = 12 := by
                      by_contra hne
                      exact hg1 ⟨rfl, hne⟩
                    have hbv : v6Bound none i = v6BoundF i := rfl
                    rw [hbv]
                    unfold v6BoundF
                    rw [if_neg (by omega), if_pos hi12]
                    omega
                | some e0 =>
                    have hfin := v6Finish_some _ _ _ _ _ h
                    have hlt : i + 4 < 16 := by
                      by_contra hge
                      push_neg at hge
                      have := hfin.2.2 hge
                      simp at this
                    have hb := v6BoundT_ge15 i hev (by omega)
                    have hbv : v6Bound (some e0) i = v6BoundT i := rfl
                    rw [hbv]
                    omega
          · rw [if_neg hdot] at h
            cases rest with
            | nil =>
                simp only at h
                have hfin := v6Finish_some _ _ _ _ _ h
                simp only [List.length_nil] at hslen
                cases ell with
                | none =>
                    have h16 : 16 ≤ i + 2 := by
                      by_contra hlt
                      push_neg at hlt
                      exact (hfin.2.1 hlt) rfl
                    have hbv : v6Bound none i = v6BoundF i := rfl
                    rw [hbv]
                    unfold v6BoundF
                    rw [if_pos (by omega)]
                    omega
                | some e0 =>
                    have hlt : i + 2 < 16 := by
                      by_contra hge
                      push_neg at hge
                      have := hfin.2.2 hge
                      simp at this
                    have hb := v6BoundT_ge4 i hev (by omega)
                    have hbv : v6Bound (some e0) i = v6BoundT i := rfl
                    rw [hbv]
                    omega
            | cons c rest2 =>
                simp only at h
                simp only [List.length_cons] at hslen
                by_cases hc : c = 58
                · rw [if_pos hc] at h
                  cases rest2 with
                  | nil => exact absurd h (by simp)
                  | cons c2 rest3 =>
                      simp only at h
                      simp only [List.length_cons] at hslen
                      by_cases hc2 : c2 = 58
                      · rw [if_pos hc2] at h
                        cases ell with
                        | some e0 => exact absurd h (by simp)
                        | none =>
                            simp only at h
                            by_cases hr3 : rest3 = []
                            · rw [if_pos hr3] at h
                              have hfin := v6Finish_some _ _ _ _ _ h
                              have hlt : i + 2 < 16 := by
                                by_contra hge
                                push_neg at hge
                                have := hfin.2.2 hge
                                simp at this
                              have hb := v6BoundF_ge15 i hev (by omega)
                              have hbv : v6Bound none i = v6BoundF i := rfl
                              rw [hbv]
                              rw [hr3] at hslen
                              simp only [List.length_nil] at hslen
                              omega
                            · rw [if_neg hr3] at h
                              by_cases hlt : i + 2 < 16
                              · have hrec := IH (16 - (i + 2)) (by omega)
                                  rest3 (i + 2) (some (i + 2)) _ r rfl (by omega) h
                                have hbeq : v6Bound (some (i + 2)) (i + 2) = v6BoundT (i + 2) := rfl
                                rw [hbeq] at hrec
                                have hstep := v6BoundF_ellStep i hev (by omega)
                                have hbv : v6Bound none i = v6BoundF i := rfl
                                rw [hbv]
                                omega
                              · rw [GoNet.parseV6Groups] at h
                                rw [dif_neg hlt] at h
                                exact absurd ((v6Finish_some _ _ _ _ _ h).1) hr3
                      · rw [if_neg hc2] at h
                        by_cases hlt : i + 2 < 16
                        · have hrec := IH (16 - (i + 2)) (by omega)
                            (c2 :: rest3) (i + 2) ell _ r rfl (by omega) h
                          simp only [List.length_cons] at hrec
                          cases ell with
                          | none =>
                              have hstep := v6BoundF_step i hev (by omega)
                              have hbeq : v6Bound none (i + 2) = v6BoundF (i + 2) := rfl
                              rw [hbeq] at hrec
                              have hbv : v6Bound none i = v6BoundF i := rfl
                              rw [hbv]
                              omega
                          | some e0 =>
                              have hstep := v6BoundT_step i hev (by omega)
                              have hbeq : v6Bound (some e0) (i + 2) = v6BoundT (i + 2) := rfl
                              rw [hbeq] at hrec
                              have hbv : v6Bound (some e0) i = v6BoundT i := rfl
                              rw [hbv]
                              omega
                        · rw [GoNet.parseV6Groups] at h
                          rw [dif_neg hlt] at h
                          have := (v6Finish_some _ _ _ _ _ h).1
                          simp at this
                · rw [if_neg hc] at h
                  exact absurd h (by simp)
    case isFalse hi =>
      have h0 := (v6Finish_some _ _ _ _ _ h).1
      rw [h0]
      simp

theorem parseIPv6NoZone_length (s a : List Nat)
    (h : GoNet.parseIPv6NoZone s = some a) : s.length ≤ 45 := by
  unfold GoNet.parseIPv6NoZone at h
  split at h
  · rename_i rest
    split_ifs at h with hr
    · subst hr
      simp
    · have hb := parseV6Groups_length (16 - 0) rest 0 (some 0) [] a rfl
        (by omega) h
      have hbv : v6Bound (some 0) 0 = v6BoundT 0 := rfl
      rw [hbv] at hb
      norm_num [v6BoundT] at hb
      simp only [List.length_cons]
      omega
  · have hb := parseV6Groups_length (16 - 0) s 0 none [] a rfl (by omega) h
    have hbv : v6Bound none 0 = v6BoundF 0 := rfl
    rw [hbv] at hb
    norm_num [v6BoundF] at hb
    omega

/-- No text accepted by the Go 1.18 `net.ParseIP` model is longer than 45
bytes. -/
theorem ParseIP_length (s ip : List Nat) (h : GoNet.ParseIP s = some ip) :
    s.length ≤ 45 := by
  unfold GoNet.ParseIP at h
  cases hk : GoNet.firstSpecial s with
  | dot =>
      rw [hk] at h
      simp only at h
      cases hv4 : GoNet.parseIPv4 s with
      | none =>
          rw [hv4] at h
          simp at h
      | some f =>
          have := parseIPv4_length s f hv4
          omega
  | colon =>
      rw [hk] at h
      simp only at h
      cases hp : GoNet.parseIPv6 s with
      | none =>
          rw [hp] at h
          simp at h
      | some pr =>
          obtain ⟨addr, zone⟩ := pr
          rw [hp] at h
          cases zone with
          | cons z zs => simp at h
          | nil =>
              unfold GoNet.parseIPv6 at hp
              cases hsp : GoNet.splitLastPct s with
              | none =>
                  rw [hsp] at hp
                  simp only [Option.map_eq_some'] at hp
                  obtain ⟨a0, ha0, -⟩ := hp
                  exact parseIPv6NoZone_length s a0 ha0
              | some pr2 =>
                  obtain ⟨b, zone2⟩ := pr2
                  rw [hsp] at hp
                  cases zone2 with
                  | nil => simp at hp
                  | cons t ts =>
                      simp only [Option.map_eq_some'] at hp
                      obtain ⟨a0, -, hpair⟩ := hp
                      simp at hpair
  | pct =>
      rw [hk] at h
      simp at h
  | neither =>
      rw [hk] at h
      simp at h

/-- An HTTP body longer than the 48-byte budget always fails `parseIP`:
the 48-byte truncation is never itself a valid IP text. -/
theorem sdkParseIP_oversized (body : List Nat) (h : 48 < body.length) :
    Sdk.isFailure (Sdk.parseIP body) = true := by
  unfold Sdk.parseIP GoNet.UnmarshalText
  have hlen : (body.take Sdk.maxIPStrLen).length = 48 := by
    simp [Sdk.maxIPStrLen]
    omega
  rw [if_neg (by intro hh; rw [hh] at hlen; simp at hlen)]
  cases hp : GoNet.ParseIP (body.take Sdk.maxIPStrLen) with
  | none => rfl
  | some ip =>
      have := ParseIP_length _ _ hp
      omega

/-! ## Claims about the SDK client -/

/-- Concrete input showing claim C9 false as universally stated: an empty
200-response body is not parseable as a valid IP address (`net.ParseIP` of
the empty text fails), yet both operations return it as a successful nil IP
with nil error instead of a non-nil error. -/
theorem spec_C9_cex :
    GoNet.ParseIP ([] : List Nat) = none ∧
    Sdk.MyIPWithContext none (.response 200 []) = .ok [] ∧
    Sdk.UpdateAliasWithContext none (.response 200 []) = .ok [] :=
  ⟨rfl, rfl, rfl⟩

/-- C9 (amended): `MyIPWithContext`/`UpdateAliasWithContext` (via `fetchIP`)
return a non-nil error whenever the request cannot be built or completed,
whenever the response status is not 200, and whenever the response body is
NON-EMPTY and its first 48 bytes are not parseable as a valid IP address; in
particular an oversized body (more than 48 bytes) always yields an error
rather than a truncated prefix being accepted as a valid IP.  (The empty
body is the sole exception, accepted as a nil IP — see C10.) -/
theorem spec_C9 (e : GoError) (st : Nat) (body : List Nat) :
    Sdk.fetchIP (some e) (.response st body) = .error e ∧
    Sdk.fetchIP none (.failure e) = .error e ∧
    (st ≠ 200 →
      Sdk.fetchIP none (.response st body) = .error (.unexpectedStatusCode st)) ∧
    (body.take 48 ≠ [] → GoNet.ParseIP (body.take 48) = none →
      Sdk.isFailure (Sdk.fetchIP none (.response st body)) = true) ∧
    (48 < body.length →
      Sdk.isFailure (Sdk.fetchIP none (.response st body)) = true) := by
  refine ⟨rfl, rfl, ?_, ?_, ?_⟩
  · intro hst
    simp [Sdk.fetchIP, Sdk.doRequest, hst]
  · intro hne hparse
    by_cases hst : st = 200
    · subst hst
      simp only [Sdk.fetchIP, Sdk.doRequest, ne_eq, not_true_eq_false, if_neg,
        ite_false]
      unfold Sdk.parseIP GoNet.UnmarshalText
      rw [if_neg (by simpa [Sdk.maxIPStrLen] using hne)]
      simp only [Sdk.maxIPStrLen]
      rw [hparse]
      rfl
    · simp [Sdk.fetchIP, Sdk.doRequest, hst, Sdk.isFailure]
  · intro hlen
    by_cases hst : st = 200
    · subst hst
      have := sdkParseIP_oversized body hlen
      simpa [Sdk.fetchIP, Sdk.doRequest] using this
    · simp [Sdk.fetchIP, Sdk.doRequest, hst, Sdk.isFailure]

theorem spec_C9_witness :
    Sdk.fetchIP none (.response 500 [49, 46, 50, 46, 51, 46, 52])
      = .error (.unexpectedStatusCode 500) ∧
    Sdk.isFailure (Sdk.fetchIP none (.response 200 (List.replicate 49 48))) = true ∧
    Sdk.isFailure (Sdk.fetchIP none (.response 200 [120])) = true :=
  ⟨(spec_C9 (.base "x") 500 [49, 46, 50, 46, 51, 46, 52]).2.2.1 (by decide),
   (spec_C9 (.base "x") 200 (List.replicate 49 48)).2.2.2.2 (by simp),
   (spec_C9 (.base "x") 200 [120]).2.2.2.1 (by decide) (by decide)⟩

/-- C10: a 200 response with an empty body is accepted by both operations as
a successful result: the nil IP (modelled as `[]`) with nil error, not a
parse failure. -/
theorem spec_C10 :
    Sdk.MyIPWithContext none (.response 200 []) = .ok [] ∧
    Sdk.UpdateAliasWithContext none (.response 200 []) = .ok [] :=
  ⟨rfl, rfl⟩
